import Mathlib

/-
Verification of the sweatervest geometry normalization library.

The definitions below are a shallow embedding of the Python sources:
sweatervest/util.py (color grammar, color resolver, shared shape
normalizer), sweatervest/circle.py, sweatervest/convex_polygon.py,
sweatervest/linepath.py, sweatervest/cubic_hermite_path.py and
sweatervest/micropolygonmesh.py.  Machine floats are modelled by
rationals; numpy arrays of rank 1 to 4 are modelled by nested lists
together with a rank-indexed wrapper type.  Fallible code is modelled
with Option and Except over an explicit error type.
-/

namespace Sweatervest

/-- A Python scalar as it occurs in color sequences: either an int
(divided by 255 by the color resolver) or a float (passed through). -/
inductive Scalar where
  | int (n : ℤ)
  | float (q : ℚ)
deriving DecidableEq

/-- A color argument: either a hex string or a sequence of scalars.
The absent case is modelled by Option ColorInput at use sites. -/
inductive ColorInput where
  | str (s : String)
  | seq (cs : List Scalar)
deriving DecidableEq

/-- Errors raised by the embedded code.  invalidRank models the
RuntimeError for a shape of wrong length, invalidDimension the
RuntimeError invalid input dimension of reshape_vertices,
dimensionTooHigh the RuntimeError input dimension too high of the
private normalizers, malformedColor the failure of parse_color
propagated by color_to_float, and broadcastMismatch a numpy shape
mismatch when the resolved color cannot fill the last four slots. -/
inductive Err where
  | invalidRank
  | invalidDimension (d : ℕ)
  | dimensionTooHigh
  | malformedColor
  | broadcastMismatch
deriving DecidableEq

/-- Decidable equality of results, used to evaluate the embedded
functions on concrete inputs. -/
instance {ε α : Type} [DecidableEq ε] [DecidableEq α] : DecidableEq (Except ε α) :=
  fun a b =>
    match a, b with
    | .ok x, .ok y =>
        if h : x = y then .isTrue (congrArg Except.ok h)
        else .isFalse (fun hc => h (Except.ok.inj hc))
    | .error e, .error f =>
        if h : e = f then .isTrue (congrArg Except.error h)
        else .isFalse (fun hc => h (Except.error.inj hc))
    | .ok _, .error _ => .isFalse (fun hc => Except.noConfusion hc)
    | .error _, .ok _ => .isFalse (fun hc => Except.noConfusion hc)

/-- True on the characters of the regex class for a hex digit,
0 to 9, a to f and A to F, from make_color_grammar in util.py. -/
def isHexDigit (c : Char) : Bool :=
  (('0' ≤ c) && (c ≤ '9')) || (('a' ≤ c) && (c ≤ 'f')) || (('A' ≤ c) && (c ≤ 'F'))

/-- Numeric value of one hex digit, as computed by int(v, 16). -/
def hexVal (c : Char) : ℕ :=
  if 'a' ≤ c ∧ c ≤ 'f' then c.toNat - 'a'.toNat + 10
  else if 'A' ≤ c ∧ c ≤ 'F' then c.toNat - 'A'.toNat + 10
  else c.toNat - '0'.toNat

/-- Value of a two digit hex pair, int(hl, 16). -/
def hexByte (h l : Char) : ℕ := 16 * hexVal h + hexVal l

/-- Value of a doubled hex digit, int(2 * v, 16) in parse_color:
the digit repeated twice as a pair, so 17 times its value. -/
def hexDoubled (d : Char) : ℕ := 17 * hexVal d

/-- The optional leading hash of the regex fragment at the start of
the hex_color rule of make_color_grammar. -/
def stripHash (cs : List Char) : List Char :=
  match cs with
  | c :: rest => if c = '#' then rest else c :: rest
  | [] => []

/-- The end anchor of the hex_color rule: in the re module the dollar
anchor matches at the end of the string and also just before a single
newline that ends the string, so one trailing newline is discarded
before matching. -/
def stripNewline (cs : List Char) : List Char :=
  match cs with
  | [] => []
  | [c] => if c = '\n' then [] else [c]
  | c :: rest => c :: stripNewline rest

/-- parse_color from util.py.  The anchored regex accepts an optional
hash followed by either three or four hex pairs (group double) or
three or four single hex digits (group single), with the dollar
anchor also tolerating one trailing newline; on a match the double
branch reads channel bytes pairwise with alpha defaulting to ff, the
single branch doubles each digit with alpha defaulting to f.  A
non-match returns none. -/
def parse_color (s : String) : Option (ℕ × ℕ × ℕ × ℕ) :=
  let cs := stripHash (stripNewline s.data)
  if cs.all isHexDigit then
    if cs.length = 6 || cs.length = 8 then
      some (hexByte (cs.getD 0 '0') (cs.getD 1 '0'),
            hexByte (cs.getD 2 '0') (cs.getD 3 '0'),
            hexByte (cs.getD 4 '0') (cs.getD 5 '0'),
            if cs.length = 6 then 255 else hexByte (cs.getD 6 '0') (cs.getD 7 '0'))
    else if cs.length = 3 || cs.length = 4 then
      some (hexDoubled (cs.getD 0 '0'),
            hexDoubled (cs.getD 1 '0'),
            hexDoubled (cs.getD 2 '0'),
            if cs.length = 3 then 255 else hexDoubled (cs.getD 3 '0'))
    else none
  else none

/-- One component of a color sequence as converted by color_to_float:
an int is divided by 255, a float is passed through. -/
def scalarToFloat (c : Scalar) : ℚ :=
  match c with
  | .int n => (n : ℚ) / 255
  | .float q => q

/-- color_to_float from util.py.  none yields transparent black;
a string is parsed and scaled by 255, failing when parse_color
returns none (the Python code then raises); a sequence is converted
componentwise. -/
def color_to_float (color : Option ColorInput) : Option (List ℚ) :=
  match color with
  | none => some [0, 0, 0, 0]
  | some (.str s) =>
      (parse_color s).map (fun rgba =>
        [(rgba.1 : ℚ) / 255, (rgba.2.1 : ℚ) / 255, (rgba.2.2.1 : ℚ) / 255, (rgba.2.2.2 : ℚ) / 255])
  | some (.seq cs) => some (cs.map scalarToFloat)

/-- A numpy array of rank 1 to 4 over rationals.  The normalizers
accept rank 2 and rank 3; ranks 1 and 4 exist to express the rank
errors of the sources. -/
inductive Arr where
  | rank1 (x : List ℚ)
  | rank2 (x : List (List ℚ))
  | rank3 (x : List (List (List ℚ)))
  | rank4 (x : List (List (List (List ℚ))))
deriving DecidableEq

/-- Size of the last axis of a rank 2 array, shape[1] in the sources.
On rectangular data this is the common row width. -/
def dim2 (rows : List (List ℚ)) : ℕ := (rows.headD []).length

/-- Size of the last axis of a rank 3 array, shape[2] in the sources. -/
def dim3 (grid : List (List (List ℚ))) : ℕ := ((grid.headD []).headD []).length

/-- Overwrite the slots of l from position i on with xs, the slice
assignment l[i:i+len(xs)] = xs. -/
def setSlice (l : List ℚ) (i : ℕ) (xs : List ℚ) : List ℚ :=
  l.take i ++ xs ++ l.drop (i + xs.length)

/-- The position defaults of the normalizers: component 2 is set to
one when d is below 3, component 3 is set to one when d is below 4. -/
def padZW (d : ℕ) (l : List ℚ) : List ℚ :=
  if d < 4 then (if d < 3 then l.set 2 1 else l).set 3 1
  else (if d < 3 then l.set 2 1 else l)

/-- The per row body shared by all three normalizers: allocate eight
zeros, copy the first d components of the row, apply the position
defaults, then write the resolved color into components 4 to 7. -/
def padRow (d : ℕ) (row : List ℚ) (fill : List ℚ) : List ℚ :=
  setSlice (padZW d (setSlice (List.replicate 8 (0 : ℚ)) 0 (row.take d))) 4 fill

/-- The numpy broadcast of the resolved color tuple into the width
four color slice of the output: a length four tuple is taken as is, a
length one tuple is replicated across the slice, any other length is
a shape mismatch.  Composed with color_to_float this models the
assignment out[..., 4:] = color_to_float(color) in util.py and
linepath.py. -/
def resolveFill (color : Option ColorInput) : Except Err (List ℚ) :=
  match color_to_float color with
  | none => .error .malformedColor
  | some l =>
      if l.length = 4 then .ok l
      else if l.length = 1 then .ok (List.replicate 4 (l.headD 0))
      else .error .broadcastMismatch

/-- The rank 2 instantiation of reshape_vertices from util.py: reject
a last axis size outside 2, 3, 4, 8; return width 8 input unchanged;
otherwise pad every row. -/
def reshape2 (rows : List (List ℚ)) (color : Option ColorInput) : Except Err (List (List ℚ)) :=
  if dim2 rows = 2 ∨ dim2 rows = 3 ∨ dim2 rows = 4 ∨ dim2 rows = 8 then
    if dim2 rows = 8 then .ok rows
    else (resolveFill color).map (fun fill => rows.map (fun r => padRow (dim2 rows) r fill))
  else .error (.invalidDimension (dim2 rows))

/-- The rank 3 instantiation of reshape_vertices from util.py. -/
def reshape3 (grid : List (List (List ℚ))) (color : Option ColorInput) :
    Except Err (List (List (List ℚ))) :=
  if dim3 grid = 2 ∨ dim3 grid = 3 ∨ dim3 grid = 4 ∨ dim3 grid = 8 then
    if dim3 grid = 8 then .ok grid
    else (resolveFill color).map (fun fill =>
      grid.map (fun plane => plane.map (fun r => padRow (dim3 grid) r fill)))
  else .error (.invalidDimension (dim3 grid))

/-- reshape_vertices from util.py: dispatch on the rank of the input,
rejecting ranks other than 2 and 3. -/
def reshape_vertices (input : Arr) (color : Option ColorInput) : Except Err Arr :=
  match input with
  | .rank2 rows => (reshape2 rows color).map Arr.rank2
  | .rank3 grid => (reshape3 grid color).map Arr.rank3
  | _ => .error .invalidRank

/-- The private normalizer LinePath.reshape_input from linepath.py:
requires rank 2, rejects a last axis size above 8, returns width 8
input unchanged, otherwise pads every row with the color resolved
through color_to_float. -/
def LinePath.reshape_input (input : Arr) (color : Option ColorInput) : Except Err Arr :=
  match input with
  | .rank2 rows =>
      if dim2 rows > 8 then .error .dimensionTooHigh
      else if dim2 rows = 8 then .ok (.rank2 rows)
      else (resolveFill color).map (fun fill =>
        .rank2 (rows.map (fun r => padRow (dim2 rows) r fill)))
  | _ => .error .invalidRank

/-- The color conversion inlined in MicropolygonMesh.reshape_input:
none becomes a zero array of shape one one four, a string is parsed
and scaled (failing when parse_color fails), a sequence is converted
componentwise and reshaped to one one four, which requires exactly
four components. -/
def meshResolveColor (color : Option ColorInput) : Except Err (List ℚ) :=
  match color with
  | none => .ok [0, 0, 0, 0]
  | some (.str s) =>
      match parse_color s with
      | none => .error .malformedColor
      | some rgba =>
          .ok [(rgba.1 : ℚ) / 255, (rgba.2.1 : ℚ) / 255,
               (rgba.2.2.1 : ℚ) / 255, (rgba.2.2.2 : ℚ) / 255]
  | some (.seq cs) =>
      if (cs.map scalarToFloat).length = 4 then .ok (cs.map scalarToFloat)
      else .error .broadcastMismatch

/-- The private normalizer MicropolygonMesh.reshape_input from
micropolygonmesh.py: requires rank 3, rejects a last axis size above
8, returns width 8 input unchanged, otherwise pads every row of every
plane with its own inlined color conversion. -/
def MicropolygonMesh.reshape_input (input : Arr) (color : Option ColorInput) : Except Err Arr :=
  match input with
  | .rank3 grid =>
      if dim3 grid > 8 then .error .dimensionTooHigh
      else if dim3 grid = 8 then .ok (.rank3 grid)
      else (meshResolveColor color).map (fun fill =>
        .rank3 (grid.map (fun plane => plane.map (fun r => padRow (dim3 grid) r fill))))
  | _ => .error .invalidRank

/-- default_position from circle.py. -/
def default_position : List ℚ := [0, 0, 1, 1]

/-- convert_position from circle.py: extend the given position with
the tail of the default, then keep the first four components. -/
def convert_position (position : List ℚ) : List ℚ :=
  ((position ++ default_position.drop position.length).take 4)

/-- The normalized fields of a Circle as constructed in circle.py. -/
structure Circle where
  center : List ℚ
  radius : ℚ
  color : List ℚ
deriving DecidableEq

/-- A generic document node for a registered geometry variant: the
constructor is the reserved tag field, the arguments are the fields
read by the corresponding Python constructor.  Vertex data is carried
as an array of whatever rank the document provides. -/
inductive GeoNode where
  | circle (center : List ℚ) (radius : ℚ) (color : Option ColorInput)
  | convexPolygon (vertices : Arr) (color : Option ColorInput)
  | linePath (vertices : Arr) (color : Option ColorInput)
  | cubicHermitePath (vertices : Arr) (color : Option ColorInput)
  | micropolygonMesh (vertices : Arr) (color : Option ColorInput)
deriving DecidableEq

/-- A constructed geometry record: the normalized numeric fields of
each registered variant. -/
inductive GeoRecord where
  | circle (c : Circle)
  | convexPolygon (vertices : Arr)
  | linePath (vertices : Arr)
  | cubicHermitePath (vertices : Arr)
  | micropolygonMesh (vertices : Arr)
deriving DecidableEq

/-- The constructor body of Circle in circle.py, reached through the
classmethod convert_to_object: pad the center, keep the radius, and
resolve the color, failing when color_to_float fails. -/
def Circle.convert_to_object (center : List ℚ) (radius : ℚ)
    (color : Option ColorInput) : Except Err Circle :=
  match color_to_float color with
  | none => .error .malformedColor
  | some c => .ok ⟨convert_position center, radius, c⟩

/-- Circle.convert_to_dict from circle.py: the tag, the stored color
and center as plain float lists, and the radius. -/
def Circle.convert_to_dict (c : Circle) : GeoNode :=
  .circle c.center c.radius (some (.seq (c.color.map Scalar.float)))

/-- ConvexPolygon.convert_to_dict from convex_polygon.py: the tag and
the normalized vertices; no color key is written. -/
def ConvexPolygon.convert_to_dict (vertices : Arr) : GeoNode :=
  .convexPolygon vertices none

/-- CubicHermitePath.convert_to_dict from cubic_hermite_path.py. -/
def CubicHermitePath.convert_to_dict (vertices : Arr) : GeoNode :=
  .cubicHermitePath vertices none

/-- MicropolygonMesh.convert_to_dict from micropolygonmesh.py. -/
def MicropolygonMesh.convert_to_dict (vertices : Arr) : GeoNode :=
  .micropolygonMesh vertices none

/-- Modelled from the spec: the parser module of the repository is
not part of the source tree, only its callers are; per the spec the
registry resolves the tag of a node and delegates to the registered
constructor of that variant.  Each branch below is the constructor
found in the sources. -/
def decode (node : GeoNode) : Except Err GeoRecord :=
  match node with
  | .circle c r col => (Circle.convert_to_object c r col).map GeoRecord.circle
  | .convexPolygon v col => (reshape_vertices v col).map GeoRecord.convexPolygon
  | .linePath v col => (LinePath.reshape_input v col).map GeoRecord.linePath
  | .cubicHermitePath v col => (reshape_vertices v col).map GeoRecord.cubicHermitePath
  | .micropolygonMesh v col => (MicropolygonMesh.reshape_input v col).map GeoRecord.micropolygonMesh

/-- Modelled from the spec: serialization dispatches to the encoder
of the runtime variant, the convert_to_dict method of the record.
LinePath defines no convert_to_dict in linepath.py, so encoding a
LinePath record has no defined result and is modelled as none. -/
def encode (record : GeoRecord) : Option GeoNode :=
  match record with
  | .circle c => some c.convert_to_dict
  | .convexPolygon v => some (ConvexPolygon.convert_to_dict v)
  | .linePath _ => none
  | .cubicHermitePath v => some (CubicHermitePath.convert_to_dict v)
  | .micropolygonMesh v => some (MicropolygonMesh.convert_to_dict v)

/-- The grammar of hex color strings as the spec states it: an
optional leading hash followed by exactly 3, 4, 6 or 8 hex digits.
Stated from the spec wording to compare against parse_color. -/
def hexGrammarAccepts (s : String) : Bool :=
  (stripHash s.data).all isHexDigit &&
    ((stripHash s.data).length = 3 || (stripHash s.data).length = 4 ||
     (stripHash s.data).length = 6 || (stripHash s.data).length = 8)

/-- The grammar that the regex of util.py actually accepts: an
optional leading hash, exactly 3, 4, 6 or 8 hex digits, and then an
optional single trailing newline, which the dollar anchor of the re
module tolerates. -/
def hexGrammarNewlineAccepts (s : String) : Bool :=
  (stripHash (stripNewline s.data)).all isHexDigit &&
    ((stripHash (stripNewline s.data)).length = 3 ||
     (stripHash (stripNewline s.data)).length = 4 ||
     (stripHash (stripNewline s.data)).length = 6 ||
     (stripHash (stripNewline s.data)).length = 8)

/-- A list of length four is an explicit four element list. -/
lemma listLengthFour (l : List ℚ) (h : l.length = 4) : ∃ a b c d, l = [a, b, c, d] := by
  rcases l with _ | ⟨a, l⟩; · simp at h
  rcases l with _ | ⟨b, l⟩; · simp at h
  rcases l with _ | ⟨c, l⟩; · simp at h
  rcases l with _ | ⟨d, l⟩; · simp at h
  rcases l with _ | ⟨e, l⟩
  · exact ⟨a, b, c, d, rfl⟩
  · simp at h

/-- A successful resolveFill always yields four components. -/
lemma resolveFill_length (color : Option ColorInput) (fill : List ℚ)
    (h : resolveFill color = .ok fill) : fill.length = 4 := by
  unfold resolveFill at h
  rcases hc : color_to_float color with _ | l <;> rw [hc] at h
  · cases h
  · dsimp only at h
    split_ifs at h with h4 h1
    · cases h
      exact h4
    · cases h
      simp

/-- Padding a full row of width d with a four component fill gives
the row, the position defaults and the fill, concatenated. -/
lemma padRow_spec (d : ℕ) (row fill : List ℚ)
    (hd : d = 2 ∨ d = 3 ∨ d = 4) (hr : row.length = d) (hf : fill.length = 4) :
    padRow d row fill
      = row ++ (if d < 3 then [1] else []) ++ (if d < 4 then [1] else []) ++ fill := by
  obtain ⟨a, b, c, e, rfl⟩ := listLengthFour fill hf
  rcases hd with rfl | rfl | rfl
  · obtain ⟨x, y, rfl⟩ := List.length_eq_two.mp hr
    rfl
  · obtain ⟨x, y, z, rfl⟩ := List.length_eq_three.mp hr
    rfl
  · obtain ⟨x, y, z, w, rfl⟩ := listLengthFour row hr
    rfl

/-- Writing a four component fill at position four of an eight slot
list keeps eight slots. -/
lemma setSlice4_length (X fill : List ℚ) (hX : X.length = 8) (hf : fill.length = 4) :
    (setSlice X 4 fill).length = 8 := by
  simp [setSlice, hX, hf]

/-- Writing a four component fill at position four of an eight slot
list makes the fill its last four components. -/
lemma setSlice4_drop (X fill : List ℚ) (hX : X.length = 8) (hf : fill.length = 4) :
    (setSlice X 4 fill).drop 4 = fill := by
  have h1 : X.drop (4 + fill.length) = [] := by
    apply List.drop_eq_nil_of_le
    omega
  have h2 : (X.take 4).length = 4 := by simp [hX]
  rw [setSlice, h1, List.append_nil]
  nth_rewrite 1 [← h2]
  exact List.drop_left _ _

/-- The position defaults preserve the number of slots. -/
lemma padZW_length (d : ℕ) (l : List ℚ) : (padZW d l).length = l.length := by
  unfold padZW
  split_ifs <;> simp

/-- The zero filled output with the row copied in has eight slots. -/
lemma copyRow_length (d : ℕ) (row : List ℚ) (hd : d ≤ 8) (hr : row.length = d) :
    (setSlice (List.replicate 8 (0 : ℚ)) 0 (row.take d)).length = 8 := by
  simp [setSlice, hr]
  omega

/-- Padding a full row of width at most eight gives eight slots. -/
lemma padRow_length (d : ℕ) (row fill : List ℚ)
    (hd : d ≤ 8) (hr : row.length = d) (hf : fill.length = 4) :
    (padRow d row fill).length = 8 := by
  unfold padRow
  exact setSlice4_length _ _ (by rw [padZW_length]; exact copyRow_length d row hd hr) hf

/-- The last four components of a padded full row are the fill. -/
lemma padRow_drop4 (d : ℕ) (row fill : List ℚ)
    (hd : d ≤ 8) (hr : row.length = d) (hf : fill.length = 4) :
    (padRow d row fill).drop 4 = fill := by
  unfold padRow
  exact setSlice4_drop _ _ (by rw [padZW_length]; exact copyRow_length d row hd hr) hf

/-- A hex digit is never a newline. -/
lemma hex_ne_newline (c : Char) (h : isHexDigit c = true) : ¬ c = '\n' := by
  intro hc
  rw [hc] at h
  exact absurd h (by decide)

/-- Discarding a trailing newline commutes with an unconsumed head. -/
lemma stripNewline_cons (c : Char) (cs : List Char) (h : cs ≠ []) :
    stripNewline (c :: cs) = c :: stripNewline cs := by
  rcases cs with _ | ⟨d, ds⟩
  · exact absurd rfl h
  · rfl

/-- Discarding a trailing newline keeps the head when the result is
not empty. -/
lemma stripNewline_head (c : Char) (cs : List Char) (d : Char) (ds : List Char)
    (h : stripNewline (c :: cs) = d :: ds) : d = c := by
  rcases cs with _ | ⟨e, es⟩
  · by_cases hc : c = '\n'
    · rw [show stripNewline [c] = [] from by simp [stripNewline, hc]] at h
      cases h
    · rw [show stripNewline [c] = [c] from by simp [stripNewline, hc]] at h
      exact (List.cons.inj h).1.symm
  · rw [stripNewline_cons c (e :: es) (by simp)] at h
    exact (List.cons.inj h).1.symm

/-- A string outside the newline extended grammar does not parse. -/
lemma parse_color_eq_none (s : String) (h : hexGrammarNewlineAccepts s = false) :
    parse_color s = none := by
  unfold hexGrammarNewlineAccepts at h
  unfold parse_color
  by_cases hall : (stripHash (stripNewline s.data)).all isHexDigit = true
  · simp only [hall, Bool.true_and] at h
    simp only [Bool.or_eq_false_iff, decide_eq_false_iff_not] at h
    obtain ⟨⟨⟨h3, h4⟩, h6⟩, h8⟩ := h
    simp [hall, h3, h4, h6, h8]
  · simp [hall]

/-- Counterexample to claim C6: the string fff followed by one
newline is outside the claimed hex grammar, yet the color resolver
accepts it and yields opaque white, because the dollar anchor of the
re module also matches just before a final newline. -/
theorem trailing_newline_color_accepted :
    hexGrammarAccepts (String.mk ['f', 'f', 'f', '\n']) = false ∧
    color_to_float (some (.str (String.mk ['f', 'f', 'f', '\n']))) = some [1, 1, 1, 1] := by
  constructor
  · decide
  · have hp : parse_color (String.mk ['f', 'f', 'f', '\n']) = some (255, 255, 255, 255) := by
      decide
    unfold color_to_float
    dsimp only
    rw [hp]
    norm_num

/-- Claim C6 as amended: a color string that the newline extended hex
grammar rejects makes the color resolver fail, and in particular the
string zzz fails. -/
theorem malformed_color_rejected :
    (∀ s : String, hexGrammarNewlineAccepts s = false →
      color_to_float (some (.str s)) = none) ∧
    color_to_float (some (.str "zzz")) = none := by
  constructor
  · intro s h
    simp [color_to_float, parse_color_eq_none s h]
  · decide

/-- Witness for claim C6 at the concrete string zzz. -/
theorem malformed_color_rejected_witness :
    color_to_float (some (.str "zzz")) = none :=
  malformed_color_rejected.1 "zzz" (by decide)

/-- Claim C7: accepted hex strings decode as the spec states.  A
short form of three digits doubles each digit with alpha 255, a short
form of four digits doubles the fourth digit into alpha, a long form
of six digits reads pairs with alpha 255, a long form of eight digits
reads the alpha pair, the leading hash is optional, and upper case is
accepted with the same value, shown on a mixed case string. -/
theorem hex_grammar_values :
    (∀ r g b : Char, isHexDigit r = true → isHexDigit g = true → isHexDigit b = true →
      parse_color (String.mk ['#', r, g, b])
        = some (17 * hexVal r, 17 * hexVal g, 17 * hexVal b, 255)) ∧
    (∀ r g b a : Char, isHexDigit r = true → isHexDigit g = true → isHexDigit b = true →
      isHexDigit a = true →
      parse_color (String.mk ['#', r, g, b, a])
        = some (17 * hexVal r, 17 * hexVal g, 17 * hexVal b, 17 * hexVal a)) ∧
    (∀ r1 r2 g1 g2 b1 b2 : Char, isHexDigit r1 = true → isHexDigit r2 = true →
      isHexDigit g1 = true → isHexDigit g2 = true → isHexDigit b1 = true →
      isHexDigit b2 = true →
      parse_color (String.mk ['#', r1, r2, g1, g2, b1, b2])
        = some (hexByte r1 r2, hexByte g1 g2, hexByte b1 b2, 255)) ∧
    (∀ r1 r2 g1 g2 b1 b2 a1 a2 : Char, isHexDigit r1 = true → isHexDigit r2 = true →
      isHexDigit g1 = true → isHexDigit g2 = true → isHexDigit b1 = true →
      isHexDigit b2 = true → isHexDigit a1 = true → isHexDigit a2 = true →
      parse_color (String.mk ['#', r1, r2, g1, g2, b1, b2, a1, a2])
        = some (hexByte r1 r2, hexByte g1 g2, hexByte b1 b2, hexByte a1 a2)) ∧
    (∀ cs : List Char, cs.head? ≠ some '#' →
      parse_color (String.mk ('#' :: cs)) = parse_color (String.mk cs)) ∧
    parse_color (String.mk ['#', 'f', 'f', 'f']) = some (255, 255, 255, 255) ∧
    parse_color (String.mk ['#', '0', '0', '0', '0']) = some (0, 0, 0, 0) ∧
    parse_color (String.mk ['#', 'f', 'f', '0', '0', '0', '0', 'f', 'f'])
      = some (255, 0, 0, 255) ∧
    parse_color (String.mk ['a', 'b', 'c']) = parse_color (String.mk ['#', 'a', 'b', 'c']) ∧
    parse_color (String.mk ['#', 'A', 'b', 'C']) = parse_color (String.mk ['#', 'a', 'b', 'c']) := by
  refine ⟨?_, ?_, ?_, ?_, ?_, by decide, by decide, by decide, by decide, by decide⟩
  · intro r g b hr hg hb
    simp [parse_color, stripNewline, hex_ne_newline b hb, stripHash, hr, hg, hb, hexDoubled]
  · intro r g b a hr hg hb ha
    simp [parse_color, stripNewline, hex_ne_newline a ha, stripHash, hr, hg, hb, ha, hexDoubled]
  · intro r1 r2 g1 g2 b1 b2 h1 h2 h3 h4 h5 h6
    simp [parse_color, stripNewline, hex_ne_newline b2 h6, stripHash, h1, h2, h3, h4, h5, h6]
  · intro r1 r2 g1 g2 b1 b2 a1 a2 h1 h2 h3 h4 h5 h6 h7 h8
    simp [parse_color, stripNewline, hex_ne_newline a2 h8, stripHash,
      h1, h2, h3, h4, h5, h6, h7, h8]
  · intro cs hcs
    rcases cs with _ | ⟨c, cs⟩
    · rfl
    · have hc : ¬ c = '#' := by
        intro hc
        exact hcs (by rw [hc]; rfl)
      unfold parse_color
      dsimp only
      rw [stripNewline_cons '#' (c :: cs) (by simp)]
      rcases hsn : stripNewline (c :: cs) with _ | ⟨d, ds⟩
      · rfl
      · have hd : ¬ d = '#' := by
          rw [stripNewline_head c cs d ds hsn]
          exact hc
        rw [show stripHash ('#' :: d :: ds) = d :: ds from by simp [stripHash],
          show stripHash (d :: ds) = d :: ds from by simp [stripHash, hd]]

/-- Witness for claim C7: the generic conjuncts applied at concrete
digits. -/
theorem hex_grammar_values_witness :
    parse_color (String.mk ['#', 'a', 'b', 'c'])
      = some (17 * hexVal 'a', 17 * hexVal 'b', 17 * hexVal 'c', 255) ∧
    parse_color (String.mk ['#', '1', '2', '3', '4'])
      = some (17 * hexVal '1', 17 * hexVal '2', 17 * hexVal '3', 17 * hexVal '4') ∧
    parse_color (String.mk ['#', 'f', 'f', '0', '0', '0', '0'])
      = some (hexByte 'f' 'f', hexByte '0' '0', hexByte '0' '0', 255) ∧
    parse_color (String.mk ['#', '0', '1', '2', '3', '4', '5', '6', '7'])
      = some (hexByte '0' '1', hexByte '2' '3', hexByte '4' '5', hexByte '6' '7') ∧
    parse_color (String.mk ('#' :: ['a', 'b', 'c'])) = parse_color (String.mk ['a', 'b', 'c']) :=
  ⟨hex_grammar_values.1 'a' 'b' 'c' (by decide) (by decide) (by decide),
   hex_grammar_values.2.1 '1' '2' '3' '4' (by decide) (by decide) (by decide) (by decide),
   hex_grammar_values.2.2.1 'f' 'f' '0' '0' '0' '0'
     (by decide) (by decide) (by decide) (by decide) (by decide) (by decide),
   hex_grammar_values.2.2.2.1 '0' '1' '2' '3' '4' '5' '6' '7'
     (by decide) (by decide) (by decide) (by decide)
     (by decide) (by decide) (by decide) (by decide),
   hex_grammar_values.2.2.2.2.1 ['a', 'b', 'c'] (by decide)⟩

/-- Claim C9: a numeric color sequence of length at least four is
resolved componentwise, with integer components divided by 255 and
floating point components passed through unchanged. -/
theorem color_sequence_componentwise (cs : List Scalar) (_hlen : 4 ≤ cs.length) :
    ∃ out : List ℚ, color_to_float (some (.seq cs)) = some out ∧
      out.length = cs.length ∧
      (∀ i : ℕ, ∀ n : ℤ, cs[i]? = some (.int n) → out[i]? = some ((n : ℚ) / 255)) ∧
      (∀ i : ℕ, ∀ q : ℚ, cs[i]? = some (.float q) → out[i]? = some q) := by
  refine ⟨cs.map scalarToFloat, rfl, by simp, ?_, ?_⟩
  · intro i n hi
    rw [List.getElem?_map, hi]
    rfl
  · intro i q hi
    rw [List.getElem?_map, hi]
    rfl

/-- Witness for claim C9 on a mixed sequence of bytes and floats. -/
theorem color_sequence_componentwise_witness :
    ∃ out : List ℚ,
      color_to_float (some (.seq [.int 255, .float (1/2), .int 0, .float 1])) = some out ∧
      out.length = 4 ∧
      (∀ i : ℕ, ∀ n : ℤ,
        ([Scalar.int 255, .float (1/2), .int 0, .float 1])[i]? = some (.int n) →
        out[i]? = some ((n : ℚ) / 255)) ∧
      (∀ i : ℕ, ∀ q : ℚ,
        ([Scalar.int 255, .float (1/2), .int 0, .float 1])[i]? = some (.float q) →
        out[i]? = some q) := by
  obtain ⟨out, h1, h2, h3, h4⟩ :=
    color_sequence_componentwise [.int 255, .float (1/2), .int 0, .float 1] (by decide)
  exact ⟨out, h1, h2, h3, h4⟩

/-- Width eight input passes reshape2 through unchanged. -/
lemma reshape2_width8 (rows : List (List ℚ)) (color : Option ColorInput)
    (h : dim2 rows = 8) : reshape2 rows color = .ok rows := by
  unfold reshape2
  rw [if_pos (by tauto), if_pos h]

/-- Width eight input passes reshape3 through unchanged. -/
lemma reshape3_width8 (grid : List (List (List ℚ))) (color : Option ColorInput)
    (h : dim3 grid = 8) : reshape3 grid color = .ok grid := by
  unfold reshape3
  rw [if_pos (by tauto), if_pos h]

/-- On a padded width reshape2 builds the padded rows. -/
lemma reshape2_build (rows : List (List ℚ)) (color : Option ColorInput) (fill : List ℚ)
    (hd : dim2 rows = 2 ∨ dim2 rows = 3 ∨ dim2 rows = 4)
    (hfill : resolveFill color = .ok fill) :
    reshape2 rows color = .ok (rows.map (fun r => padRow (dim2 rows) r fill)) := by
  unfold reshape2
  rw [if_pos (by tauto), if_neg (by rcases hd with h | h | h <;> omega), hfill]
  rfl

/-- On a padded width reshape3 builds the padded grid. -/
lemma reshape3_build (grid : List (List (List ℚ))) (color : Option ColorInput) (fill : List ℚ)
    (hd : dim3 grid = 2 ∨ dim3 grid = 3 ∨ dim3 grid = 4)
    (hfill : resolveFill color = .ok fill) :
    reshape3 grid color
      = .ok (grid.map (fun plane => plane.map (fun r => padRow (dim3 grid) r fill))) := by
  unfold reshape3
  rw [if_pos (by tauto), if_neg (by rcases hd with h | h | h <;> omega), hfill]
  rfl

/-- On a padded width the LinePath normalizer builds the padded rows. -/
lemma linePath_build (rows : List (List ℚ)) (color : Option ColorInput) (fill : List ℚ)
    (hle : dim2 rows ≤ 8) (h8 : dim2 rows ≠ 8)
    (hfill : resolveFill color = .ok fill) :
    LinePath.reshape_input (.rank2 rows) color
      = .ok (.rank2 (rows.map (fun r => padRow (dim2 rows) r fill))) := by
  unfold LinePath.reshape_input
  dsimp only
  rw [if_neg (by omega), if_neg h8, hfill]
  rfl

/-- On a padded width the mesh normalizer builds the padded grid. -/
lemma mesh_build (grid : List (List (List ℚ))) (color : Option ColorInput) (fill : List ℚ)
    (hle : dim3 grid ≤ 8) (h8 : dim3 grid ≠ 8)
    (hfill : meshResolveColor color = .ok fill) :
    MicropolygonMesh.reshape_input (.rank3 grid) color
      = .ok (.rank3 (grid.map (fun plane => plane.map (fun r => padRow (dim3 grid) r fill)))) := by
  unfold MicropolygonMesh.reshape_input
  dsimp only
  rw [if_neg (by omega), if_neg h8, hfill]
  rfl

/-- Claim C1: on rank 2 or rank 3 numeric input of last axis width 2,
3 or 4 and a color that resolves, reshape_vertices keeps the rank,
copies each row verbatim, appends 1 for component 2 when the width is
below 3 and for component 3 when the width is below 4, and fills the
last four components of every row with the resolved color; every
output row has exactly eight components. -/
theorem reshape_vertices_pads_rows :
    (∀ rows : List (List ℚ), ∀ color : Option ColorInput, ∀ fill : List ℚ,
      (dim2 rows = 2 ∨ dim2 rows = 3 ∨ dim2 rows = 4) →
      (∀ r ∈ rows, r.length = dim2 rows) →
      resolveFill color = .ok fill →
      ∃ out, reshape_vertices (.rank2 rows) color = .ok (.rank2 out) ∧
        out = rows.map (fun row => row ++ (if dim2 rows < 3 then [1] else [])
          ++ (if dim2 rows < 4 then [1] else []) ++ fill) ∧
        ∀ r ∈ out, r.length = 8) ∧
    (∀ grid : List (List (List ℚ)), ∀ color : Option ColorInput, ∀ fill : List ℚ,
      (dim3 grid = 2 ∨ dim3 grid = 3 ∨ dim3 grid = 4) →
      (∀ plane ∈ grid, ∀ r ∈ plane, r.length = dim3 grid) →
      resolveFill color = .ok fill →
      ∃ out, reshape_vertices (.rank3 grid) color = .ok (.rank3 out) ∧
        out = grid.map (fun plane => plane.map (fun row =>
          row ++ (if dim3 grid < 3 then [1] else [])
          ++ (if dim3 grid < 4 then [1] else []) ++ fill)) ∧
        ∀ plane ∈ out, ∀ r ∈ plane, r.length = 8) := by
  constructor
  · intro rows color fill hd hrect hfill
    have hflen := resolveFill_length color fill hfill
    refine ⟨rows.map (fun r => padRow (dim2 rows) r fill), ?_, ?_, ?_⟩
    · unfold reshape_vertices
      dsimp only
      rw [reshape2_build rows color fill hd hfill]
      rfl
    · exact List.map_congr_left (fun r hr =>
        padRow_spec _ _ _ hd (hrect r hr) hflen)
    · intro r hr
      obtain ⟨r0, hr0, rfl⟩ := List.mem_map.mp hr
      exact padRow_length _ _ _ (by rcases hd with h | h | h <;> omega) (hrect r0 hr0) hflen
  · intro grid color fill hd hrect hfill
    have hflen := resolveFill_length color fill hfill
    refine ⟨grid.map (fun plane => plane.map (fun r => padRow (dim3 grid) r fill)), ?_, ?_, ?_⟩
    · unfold reshape_vertices
      dsimp only
      rw [reshape3_build grid color fill hd hfill]
      rfl
    · exact List.map_congr_left (fun plane hplane =>
        List.map_congr_left (fun r hr =>
          padRow_spec _ _ _ hd (hrect plane hplane r hr) hflen))
    · intro plane hplane r hr
      obtain ⟨p0, hp0, rfl⟩ := List.mem_map.mp hplane
      obtain ⟨r0, hr0, rfl⟩ := List.mem_map.mp hr
      exact padRow_length _ _ _ (by rcases hd with h | h | h <;> omega)
        (hrect p0 hp0 r0 hr0) hflen

/-- The resolved fill of the white hex color. -/
lemma resolveFill_fff :
    resolveFill (some (.str (String.mk ['#', 'f', 'f', 'f']))) = .ok [1, 1, 1, 1] := by
  have hp : parse_color (String.mk ['#', 'f', 'f', 'f']) = some (255, 255, 255, 255) := by
    decide
  have hc : color_to_float (some (.str (String.mk ['#', 'f', 'f', 'f']))) = some [1, 1, 1, 1] := by
    unfold color_to_float
    dsimp only
    rw [hp]
    norm_num
  unfold resolveFill
  rw [hc]
  norm_num

/-- Witness for claim C1: a rank 2 width 2 input with absent color
and a rank 3 width 3 input with a hex color. -/
theorem reshape_vertices_pads_rows_witness :
    reshape_vertices (.rank2 [[1, 2]]) none = .ok (.rank2 [[1, 2, 1, 1, 0, 0, 0, 0]]) ∧
    reshape_vertices (.rank3 [[[1, 2, 3]]]) (some (.str (String.mk ['#', 'f', 'f', 'f'])))
      = .ok (.rank3 [[[1, 2, 3, 1, 1, 1, 1, 1]]]) := by
  constructor
  · obtain ⟨out, h1, h2, h3⟩ := reshape_vertices_pads_rows.1 [[1, 2]] none [0, 0, 0, 0]
      (by decide) (by decide) rfl
    rw [h1, show out = [[1, 2, 1, 1, 0, 0, 0, 0]] from by rw [h2]; rfl]
  · obtain ⟨out, h1, h2, h3⟩ := reshape_vertices_pads_rows.2 [[[1, 2, 3]]]
      (some (.str (String.mk ['#', 'f', 'f', 'f']))) [1, 1, 1, 1]
      (by decide) (by decide) resolveFill_fff
    rw [h1, show out = [[[1, 2, 3, 1, 1, 1, 1, 1]]] from by rw [h2]; rfl]

/-- If reshape2 succeeds its output has last axis width eight. -/
lemma reshape2_ok_dim8 (rows rows2 : List (List ℚ)) (color : Option ColorInput)
    (h : reshape2 rows color = .ok rows2) : dim2 rows2 = 8 := by
  unfold reshape2 at h
  split_ifs at h with hvalid h8
  · cases h
    exact h8
  · rcases hf : resolveFill color with e | fill <;> rw [hf] at h
    · cases h
    · dsimp only [Except.map] at h
      cases h
      rcases rows with _ | ⟨r, rest⟩
      · simp [dim2] at hvalid
      · have hr : dim2 (r :: rest) = r.length := rfl
        have : (padRow (dim2 (r :: rest)) r fill).length = 8 :=
          padRow_length _ _ _ (by rcases hvalid with h | h | h | h <;> omega) hr.symm
            (resolveFill_length color fill hf)
        simpa [dim2] using this

/-- If reshape3 succeeds its output has last axis width eight. -/
lemma reshape3_ok_dim8 (grid grid2 : List (List (List ℚ))) (color : Option ColorInput)
    (h : reshape3 grid color = .ok grid2) : dim3 grid2 = 8 := by
  unfold reshape3 at h
  split_ifs at h with hvalid h8
  · cases h
    exact h8
  · rcases hf : resolveFill color with e | fill <;> rw [hf] at h
    · cases h
    · dsimp only [Except.map] at h
      cases h
      rcases grid with _ | ⟨p, rest⟩
      · simp [dim3] at hvalid
      · rcases p with _ | ⟨r, prest⟩
        · simp [dim3] at hvalid
        · have hr : dim3 ((r :: prest) :: rest) = r.length := rfl
          have : (padRow (dim3 ((r :: prest) :: rest)) r fill).length = 8 :=
            padRow_length _ _ _ (by rcases hvalid with h | h | h | h <;> omega) hr.symm
              (resolveFill_length color fill hf)
          simpa [dim3] using this

/-- Claim C5: width eight input of rank 2 or 3 is returned unchanged
whatever the color argument, and normalization is idempotent: any
successful output, fed back in, comes back unchanged. -/
theorem reshape_vertices_width8_fixed_point :
    (∀ rows : List (List ℚ), ∀ color : Option ColorInput, dim2 rows = 8 →
      reshape_vertices (.rank2 rows) color = .ok (.rank2 rows)) ∧
    (∀ grid : List (List (List ℚ)), ∀ color : Option ColorInput, dim3 grid = 8 →
      reshape_vertices (.rank3 grid) color = .ok (.rank3 grid)) ∧
    (∀ input : Arr, ∀ color color2 : Option ColorInput, ∀ out : Arr,
      reshape_vertices input color = .ok out →
      reshape_vertices out color2 = .ok out) := by
  refine ⟨?_, ?_, ?_⟩
  · intro rows color h
    unfold reshape_vertices
    dsimp only
    rw [reshape2_width8 rows color h]
    rfl
  · intro grid color h
    unfold reshape_vertices
    dsimp only
    rw [reshape3_width8 grid color h]
    rfl
  · intro input color color2 out h
    rcases input with x | rows | grid | x
    · cases h
    · unfold reshape_vertices at h
      dsimp only at h
      rcases hr : reshape2 rows color with e | rows2 <;> rw [hr] at h
      · cases h
      · dsimp only [Except.map] at h
        cases h
        unfold reshape_vertices
        dsimp only
        rw [reshape2_width8 rows2 color2 (reshape2_ok_dim8 rows rows2 color hr)]
        rfl
    · unfold reshape_vertices at h
      dsimp only at h
      rcases hr : reshape3 grid color with e | grid2 <;> rw [hr] at h
      · cases h
      · dsimp only [Except.map] at h
        cases h
        unfold reshape_vertices
        dsimp only
        rw [reshape3_width8 grid2 color2 (reshape3_ok_dim8 grid grid2 color hr)]
        rfl
    · cases h

/-- Witness for claim C5: width eight passthrough ignores even a
malformed color, and a freshly normalized output is a fixed point. -/
theorem reshape_vertices_width8_fixed_point_witness :
    reshape_vertices (.rank2 [[1, 2, 3, 4, 5, 6, 7, 8]]) (some (.str (String.mk ['z', 'z', 'z'])))
      = .ok (.rank2 [[1, 2, 3, 4, 5, 6, 7, 8]]) ∧
    reshape_vertices (.rank2 [[1, 2, 1, 1, 0, 0, 0, 0]]) (some (.str (String.mk ['z', 'z', 'z'])))
      = .ok (.rank2 [[1, 2, 1, 1, 0, 0, 0, 0]]) := by
  constructor
  · exact reshape_vertices_width8_fixed_point.1 [[1, 2, 3, 4, 5, 6, 7, 8]] _ rfl
  · exact reshape_vertices_width8_fixed_point.2.2 (.rank2 [[1, 2]]) none _
      (.rank2 [[1, 2, 1, 1, 0, 0, 0, 0]]) rfl

/-- Claim C10: an absent color resolves to fully transparent black,
and each of the three normalizers fills components 4 to 7 of every
output row with zeros when no color is supplied. -/
theorem default_color_transparent_black :
    color_to_float none = some [0, 0, 0, 0] ∧
    (∀ rows : List (List ℚ), (dim2 rows = 2 ∨ dim2 rows = 3 ∨ dim2 rows = 4) →
      (∀ r ∈ rows, r.length = dim2 rows) →
      ∃ out, reshape_vertices (.rank2 rows) none = .ok (.rank2 out) ∧
        ∀ r ∈ out, r.drop 4 = [0, 0, 0, 0]) ∧
    (∀ grid : List (List (List ℚ)), (dim3 grid = 2 ∨ dim3 grid = 3 ∨ dim3 grid = 4) →
      (∀ plane ∈ grid, ∀ r ∈ plane, r.length = dim3 grid) →
      ∃ out, reshape_vertices (.rank3 grid) none = .ok (.rank3 out) ∧
        ∀ plane ∈ out, ∀ r ∈ plane, r.drop 4 = [0, 0, 0, 0]) ∧
    (∀ rows : List (List ℚ), (dim2 rows = 2 ∨ dim2 rows = 3 ∨ dim2 rows = 4) →
      (∀ r ∈ rows, r.length = dim2 rows) →
      ∃ out, LinePath.reshape_input (.rank2 rows) none = .ok (.rank2 out) ∧
        ∀ r ∈ out, r.drop 4 = [0, 0, 0, 0]) ∧
    (∀ grid : List (List (List ℚ)), (dim3 grid = 2 ∨ dim3 grid = 3 ∨ dim3 grid = 4) →
      (∀ plane ∈ grid, ∀ r ∈ plane, r.length = dim3 grid) →
      ∃ out, MicropolygonMesh.reshape_input (.rank3 grid) none = .ok (.rank3 out) ∧
        ∀ plane ∈ out, ∀ r ∈ plane, r.drop 4 = [0, 0, 0, 0]) := by
  refine ⟨rfl, ?_, ?_, ?_, ?_⟩
  · intro rows hd hrect
    refine ⟨rows.map (fun r => padRow (dim2 rows) r [0, 0, 0, 0]), ?_, ?_⟩
    · unfold reshape_vertices
      dsimp only
      rw [reshape2_build rows none [0, 0, 0, 0] hd rfl]
      rfl
    · intro r hr
      obtain ⟨r0, hr0, rfl⟩ := List.mem_map.mp hr
      exact padRow_drop4 _ _ _ (by rcases hd with h | h | h <;> omega) (hrect r0 hr0) rfl
  · intro grid hd hrect
    refine ⟨grid.map (fun plane => plane.map (fun r => padRow (dim3 grid) r [0, 0, 0, 0])),
      ?_, ?_⟩
    · unfold reshape_vertices
      dsimp only
      rw [reshape3_build grid none [0, 0, 0, 0] hd rfl]
      rfl
    · intro plane hplane r hr
      obtain ⟨p0, hp0, rfl⟩ := List.mem_map.mp hplane
      obtain ⟨r0, hr0, rfl⟩ := List.mem_map.mp hr
      exact padRow_drop4 _ _ _ (by rcases hd with h | h | h <;> omega)
        (hrect p0 hp0 r0 hr0) rfl
  · intro rows hd hrect
    refine ⟨rows.map (fun r => padRow (dim2 rows) r [0, 0, 0, 0]), ?_, ?_⟩
    · exact linePath_build rows none [0, 0, 0, 0]
        (by rcases hd with h | h | h <;> omega) (by rcases hd with h | h | h <;> omega) rfl
    · intro r hr
      obtain ⟨r0, hr0, rfl⟩ := List.mem_map.mp hr
      exact padRow_drop4 _ _ _ (by rcases hd with h | h | h <;> omega) (hrect r0 hr0) rfl
  · intro grid hd hrect
    refine ⟨grid.map (fun plane => plane.map (fun r => padRow (dim3 grid) r [0, 0, 0, 0])),
      ?_, ?_⟩
    · exact mesh_build grid none [0, 0, 0, 0]
        (by rcases hd with h | h | h <;> omega) (by rcases hd with h | h | h <;> omega) rfl
    · intro plane hplane r hr
      obtain ⟨p0, hp0, rfl⟩ := List.mem_map.mp hplane
      obtain ⟨r0, hr0, rfl⟩ := List.mem_map.mp hr
      exact padRow_drop4 _ _ _ (by rcases hd with h | h | h <;> omega)
        (hrect p0 hp0 r0 hr0) rfl

/-- Witness for claim C10 on all three normalizers at concrete
width 2 input. -/
theorem default_color_transparent_black_witness :
    (∃ out, reshape_vertices (.rank2 [[5, 6]]) none = .ok (.rank2 out) ∧
      ∀ r ∈ out, r.drop 4 = [0, 0, 0, 0]) ∧
    (∃ out, LinePath.reshape_input (.rank2 [[5, 6]]) none = .ok (.rank2 out) ∧
      ∀ r ∈ out, r.drop 4 = [0, 0, 0, 0]) ∧
    (∃ out, MicropolygonMesh.reshape_input (.rank3 [[[5, 6]]]) none = .ok (.rank3 out) ∧
      ∀ plane ∈ out, ∀ r ∈ plane, r.drop 4 = [0, 0, 0, 0]) :=
  ⟨default_color_transparent_black.2.1 [[5, 6]] (by decide) (by decide),
   default_color_transparent_black.2.2.2.1 [[5, 6]] (by decide) (by decide),
   default_color_transparent_black.2.2.2.2 [[[5, 6]]] (by decide) (by decide)⟩

/-- Counterexample to claim C2: the private normalizer of LinePath
accepts a rank 2 input of width 5 with no error; the fifth component
is silently overwritten by the color fill. -/
theorem linePath_width5_accepted :
    LinePath.reshape_input (.rank2 [[1, 2, 3, 4, 5]]) none
      = .ok (.rank2 [[1, 2, 3, 4, 0, 0, 0, 0]]) := by
  decide

/-- Claim C2 as amended: the shared reshape_vertices rejects widths
outside 2, 3, 4, 8 with an invalid dimension error and ranks outside
2 and 3 with a rank error; the private normalizers of LinePath and
MicropolygonMesh check rank and reject only widths above 8, accepting
every width up to 8. -/
theorem normalizers_reject_bad_shapes :
    (∀ rows : List (List ℚ), ∀ color : Option ColorInput,
      ¬(dim2 rows = 2 ∨ dim2 rows = 3 ∨ dim2 rows = 4 ∨ dim2 rows = 8) →
      reshape_vertices (.rank2 rows) color = .error (.invalidDimension (dim2 rows))) ∧
    (∀ grid : List (List (List ℚ)), ∀ color : Option ColorInput,
      ¬(dim3 grid = 2 ∨ dim3 grid = 3 ∨ dim3 grid = 4 ∨ dim3 grid = 8) →
      reshape_vertices (.rank3 grid) color = .error (.invalidDimension (dim3 grid))) ∧
    (∀ x : List ℚ, ∀ color : Option ColorInput,
      reshape_vertices (.rank1 x) color = .error .invalidRank) ∧
    (∀ x : List (List (List (List ℚ))), ∀ color : Option ColorInput,
      reshape_vertices (.rank4 x) color = .error .invalidRank) ∧
    (∀ rows : List (List ℚ), ∀ color : Option ColorInput, dim2 rows > 8 →
      LinePath.reshape_input (.rank2 rows) color = .error .dimensionTooHigh) ∧
    (∀ x : List ℚ, ∀ color : Option ColorInput,
      LinePath.reshape_input (.rank1 x) color = .error .invalidRank) ∧
    (∀ grid : List (List (List ℚ)), ∀ color : Option ColorInput,
      LinePath.reshape_input (.rank3 grid) color = .error .invalidRank) ∧
    (∀ grid : List (List (List ℚ)), ∀ color : Option ColorInput, dim3 grid > 8 →
      MicropolygonMesh.reshape_input (.rank3 grid) color = .error .dimensionTooHigh) ∧
    (∀ rows : List (List ℚ), ∀ color : Option ColorInput,
      MicropolygonMesh.reshape_input (.rank2 rows) color = .error .invalidRank) ∧
    (∀ rows : List (List ℚ), dim2 rows ≤ 8 → dim2 rows ≠ 8 →
      (LinePath.reshape_input (.rank2 rows) none).isOk = true) ∧
    (∀ grid : List (List (List ℚ)), dim3 grid ≤ 8 → dim3 grid ≠ 8 →
      (MicropolygonMesh.reshape_input (.rank3 grid) none).isOk = true) := by
  refine ⟨?_, ?_, fun x color => rfl, fun x color => rfl, ?_, fun x color => rfl,
    fun grid color => rfl, ?_, fun rows color => rfl, ?_, ?_⟩
  · intro rows color h
    unfold reshape_vertices reshape2
    dsimp only
    rw [if_neg h]
    rfl
  · intro grid color h
    unfold reshape_vertices reshape3
    dsimp only
    rw [if_neg h]
    rfl
  · intro rows color h
    unfold LinePath.reshape_input
    dsimp only
    rw [if_pos h]
  · intro grid color h
    unfold MicropolygonMesh.reshape_input
    dsimp only
    rw [if_pos h]
  · intro rows h1 h2
    rw [linePath_build rows none [0, 0, 0, 0] h1 h2 rfl]
    rfl
  · intro grid h1 h2
    rw [mesh_build grid none [0, 0, 0, 0] h1 h2 rfl]
    rfl

/-- Witness for the amended claim C2 at concrete bad and good
shapes. -/
theorem normalizers_reject_bad_shapes_witness :
    reshape_vertices (.rank2 [[1, 2, 3, 4, 5]]) none = .error (.invalidDimension 5) ∧
    reshape_vertices (.rank1 [1, 2]) none = .error .invalidRank ∧
    reshape_vertices (.rank4 [[[[1]]]]) none = .error .invalidRank ∧
    LinePath.reshape_input (.rank2 [[1, 2, 3, 4, 5, 6, 7, 8, 9]]) none
      = .error .dimensionTooHigh ∧
    (LinePath.reshape_input (.rank2 [[1, 2, 3, 4, 5]]) none).isOk = true :=
  ⟨normalizers_reject_bad_shapes.1 [[1, 2, 3, 4, 5]] none (by decide),
   normalizers_reject_bad_shapes.2.2.1 [1, 2] none,
   normalizers_reject_bad_shapes.2.2.2.1 [[[[1]]]] none,
   normalizers_reject_bad_shapes.2.2.2.2.1 [[1, 2, 3, 4, 5, 6, 7, 8, 9]] none (by decide),
   normalizers_reject_bad_shapes.2.2.2.2.2.2.2.2.2.1 [[1, 2, 3, 4, 5]] (by decide) (by decide)⟩

/-- Counterexample to claim C4: on a one element color sequence the
mesh normalizer fails, because the reshape of the color to the shape
one one four needs exactly four components, while the shared
normalizer broadcasts the single value across the color slots; the
two normalizers disagree on this input. -/
theorem mesh_vs_shared_singleton_color :
    MicropolygonMesh.reshape_input (.rank3 [[[0, 0]]]) (some (.seq [.float (1/2)]))
      = .error .broadcastMismatch ∧
    reshape_vertices (.rank3 [[[0, 0]]]) (some (.seq [.float (1/2)]))
      = .ok (.rank3 [[[0, 0, 1, 1, 1/2, 1/2, 1/2, 1/2]]]) ∧
    MicropolygonMesh.reshape_input (.rank3 [[[0, 0]]]) (some (.seq [.float (1/2)]))
      ≠ reshape_vertices (.rank3 [[[0, 0]]]) (some (.seq [.float (1/2)])) := by
  refine ⟨rfl, rfl, fun h => ?_⟩
  exact Except.noConfusion
    (show (Except.error Err.broadcastMismatch : Except Err Arr)
        = .ok (.rank3 [[[0, 0, 1, 1, 1/2, 1/2, 1/2, 1/2]]]) from h)

/-- The inlined mesh color conversion agrees with the shared resolver
whenever the color is not a one element sequence. -/
lemma meshResolveColor_eq (color : Option ColorInput)
    (h1 : ∀ cs, color = some (ColorInput.seq cs) → cs.length ≠ 1) :
    meshResolveColor color = resolveFill color := by
  rcases color with _ | c
  · rfl
  rcases c with s | cs
  · unfold meshResolveColor resolveFill color_to_float
    dsimp only
    rcases hp : parse_color s with _ | rgba <;> simp [hp]
  · unfold meshResolveColor resolveFill color_to_float
    dsimp only
    have hne : cs.length ≠ 1 := h1 cs rfl
    by_cases h4 : (cs.map scalarToFloat).length = 4
    · simp [h4]
    · have h4' : ¬cs.length = 4 := by simpa using h4
      simp [h4', hne]

/-- Claim C4 as amended: the LinePath normalizer agrees with the
shared reshape_vertices on every rank 2 input whose width is 2, 3, 4
or 8 and every color; the mesh normalizer agrees on every rank 3
input of those widths and every color that is not a one element
sequence. -/
theorem private_normalizers_refine_shared :
    (∀ rows : List (List ℚ), ∀ color : Option ColorInput,
      (dim2 rows = 2 ∨ dim2 rows = 3 ∨ dim2 rows = 4 ∨ dim2 rows = 8) →
      LinePath.reshape_input (.rank2 rows) color = reshape_vertices (.rank2 rows) color) ∧
    (∀ grid : List (List (List ℚ)), ∀ color : Option ColorInput,
      (dim3 grid = 2 ∨ dim3 grid = 3 ∨ dim3 grid = 4 ∨ dim3 grid = 8) →
      (∀ cs, color = some (ColorInput.seq cs) → cs.length ≠ 1) →
      MicropolygonMesh.reshape_input (.rank3 grid) color
        = reshape_vertices (.rank3 grid) color) := by
  constructor
  · intro rows color hd
    have hle : dim2 rows ≤ 8 := by rcases hd with h | h | h | h <;> omega
    by_cases h8 : dim2 rows = 8
    · unfold LinePath.reshape_input reshape_vertices
      dsimp only
      rw [if_neg (by omega), if_pos h8, reshape2_width8 rows color h8]
      rfl
    · unfold LinePath.reshape_input reshape_vertices reshape2
      dsimp only
      rw [if_neg (by omega), if_neg h8, if_pos hd, if_neg h8]
      rcases hf : resolveFill color with e | fill <;> simp [hf, Except.map]
  · intro grid color hd hcs
    have hle : dim3 grid ≤ 8 := by rcases hd with h | h | h | h <;> omega
    by_cases h8 : dim3 grid = 8
    · unfold MicropolygonMesh.reshape_input reshape_vertices
      dsimp only
      rw [if_neg (by omega), if_pos h8, reshape3_width8 grid color h8]
      rfl
    · unfold MicropolygonMesh.reshape_input reshape_vertices reshape3
      dsimp only
      rw [if_neg (by omega), if_neg h8, if_pos hd, if_neg h8, meshResolveColor_eq color hcs]
      rcases hf : resolveFill color with e | fill <;> simp [hf, Except.map]

/-- Witness for the amended claim C4 at concrete width 2 inputs. -/
theorem private_normalizers_refine_shared_witness :
    LinePath.reshape_input (.rank2 [[1, 2]]) none = reshape_vertices (.rank2 [[1, 2]]) none ∧
    MicropolygonMesh.reshape_input (.rank3 [[[1, 2]]]) none
      = reshape_vertices (.rank3 [[[1, 2]]]) none :=
  ⟨private_normalizers_refine_shared.1 [[1, 2]] none (by decide),
   private_normalizers_refine_shared.2 [[[1, 2]]] none (by decide)
     (fun cs hcs => Option.noConfusion hcs)⟩

/-- Claim C3, the code divergence: a LinePath record decodes from a
document node but cannot be encoded back, because linepath.py defines
no convert_to_dict; every sibling variant defines one. -/
theorem linePath_record_not_encodable :
    decode (GeoNode.linePath (.rank2 [[0, 0], [1, 1]]) none)
      = .ok (.linePath (.rank2 [[0, 0, 1, 1, 0, 0, 0, 0], [1, 1, 1, 1, 0, 0, 0, 0]])) ∧
    encode (GeoRecord.linePath (.rank2 [[0, 0, 1, 1, 0, 0, 0, 0], [1, 1, 1, 1, 0, 0, 0, 0]]))
      = none := by
  exact ⟨by decide, rfl⟩

/-- Claim C8: the document node carrying the Circle tag with center
zero zero, radius two and color hash f00 constructs a Circle with
center zero zero one one, radius two and color one zero zero one, and
encoding that record reproduces the numeric fields under the Circle
tag. -/
theorem circle_end_to_end :
    decode (GeoNode.circle [0, 0] 2 (some (.str (String.mk ['#', 'f', '0', '0']))))
      = .ok (.circle ⟨[0, 0, 1, 1], 2, [1, 0, 0, 1]⟩) ∧
    encode (GeoRecord.circle ⟨[0, 0, 1, 1], 2, [1, 0, 0, 1]⟩)
      = some (.circle [0, 0, 1, 1] 2
          (some (.seq [.float 1, .float 0, .float 0, .float 1]))) := by
  constructor
  · have hp : parse_color (String.mk ['#', 'f', '0', '0']) = some (255, 0, 0, 255) := by
      decide
    have hc : color_to_float (some (.str (String.mk ['#', 'f', '0', '0'])))
        = some [1, 0, 0, 1] := by
      unfold color_to_float
      dsimp only
      rw [hp]
      norm_num
    unfold decode Circle.convert_to_object
    dsimp only
    rw [hc]
    rfl
  · rfl

end Sweatervest
